import Mathlib

/-!
Verification of the oracle-mock core: a shallow embedding, in Lean 4, of the
price-feed manipulation engine (decimal conversion, price setting with
percentage and bidirectional-factor modes, protocol-adapter feed discovery,
storage-slot calculation, tolerance verification, and the high-level
setOraclePrice / resetOraclePrice facade).

Modeling conventions:
* TypeScript `bigint` is embedded as `Int` (JS bigints are unbounded).
  JS bigint `/` truncates toward zero and is embedded as `Int.tdiv`;
  JS bigint `%` keeps the dividend's sign and is embedded as `Int.tmod`.
* JS strings are embedded as `String` / `List Char`; the JS string methods
  used by the source (`toString`, `padStart`, `padEnd`, `slice`, `split`,
  template literals, `BigInt(string)`) are embedded as executable functions
  below, faithful to their JS semantics on the inputs the source produces.
* Async effects (RPC reads, transaction writes, receipt waits) are embedded
  as explicit state passing: the mock feed's stored value is the state, a
  function's issued `setLatestAnswer` transactions are returned as an ordered
  write log, and fallible operations return `Except String` carrying the
  thrown `Error`'s message.  Transaction hashes (opaque strings produced by
  the chain) are outside the model and omitted from result records.
-/

namespace OracleMock

/-- Decidable equality for `Except`, used to evaluate concrete examples. -/
instance instDecidableEqExcept {ε α : Type} [DecidableEq ε] [DecidableEq α] :
    DecidableEq (Except ε α) := fun a b =>
  match a, b with
  | .error e, .error e2 =>
    if h : e = e2 then .isTrue (by rw [h]) else .isFalse (fun hc => h (Except.error.inj hc))
  | .ok x, .ok y =>
    if h : x = y then .isTrue (by rw [h]) else .isFalse (fun hc => h (Except.ok.inj hc))
  | .error _, .ok _ => .isFalse (fun hc => Except.noConfusion hc)
  | .ok _, .error _ => .isFalse (fun hc => Except.noConfusion hc)

/-! ## JS primitives used by the source -/

/-- The character for a decimal digit `d < 10` (JS number-to-string digits). -/
def digitChar (d : Nat) : Char := Char.ofNat (48 + d)

/-- Numeric value of a decimal digit character. -/
def digitVal (c : Char) : Nat := c.toNat - 48

/-- Whether a character is a decimal digit `'0'..'9'`. -/
def isDigitChar (c : Char) : Bool := 48 ≤ c.toNat && c.toNat ≤ 57

/-- Big-endian decimal digit characters of `n`, with explicit fuel for
structural recursion (`[]` for `n = 0`; fuel `n + 1` always suffices). -/
def natToDecCharsAux : Nat → Nat → List Char
  | 0, _ => []
  | fuel + 1, n => if n = 0 then [] else natToDecCharsAux fuel (n / 10) ++ [digitChar (n % 10)]

/-- JS `BigInt.prototype.toString` (base 10) for a nonnegative value. -/
def natToDecChars (n : Nat) : List Char :=
  if n = 0 then ['0'] else natToDecCharsAux (n + 1) n

/-- JS `BigInt.prototype.toString` (base 10), including the `-` sign. -/
def intToDecChars (i : Int) : List Char :=
  if i < 0 then '-' :: natToDecChars i.natAbs else natToDecChars i.toNat

/-- JS `BigInt.prototype.toString` returning a `String`. -/
def natToDecString (n : Nat) : String := String.mk (natToDecChars n)

/-- JS `String.prototype.padStart(n, '0')`. -/
def padStartZeros (l : List Char) (n : Nat) : List Char :=
  List.replicate (n - l.length) '0' ++ l

/-- JS `String.prototype.padEnd(n, '0')`. -/
def padEndZeros (l : List Char) (n : Nat) : List Char :=
  l ++ List.replicate (n - l.length) '0'

/-- JS `String.prototype.split('.')` on the character list of a string. -/
def splitOnDot : List Char → List (List Char)
  | [] => [[]]
  | c :: cs =>
    if c = '.' then [] :: splitOnDot cs
    else
      match splitOnDot cs with
      | [] => [[c]]
      | r :: rs => (c :: r) :: rs

/-- Decimal value of a digit-character list, accumulated left to right
(the core of JS `BigInt(string)` on an all-digits string). -/
def parseDecNat (l : List Char) : Nat :=
  l.foldl (fun acc c => 10 * acc + digitVal c) 0

/-- JS `BigInt(string)` on strings without whitespace or radix prefixes
(the only shapes the source ever passes): an optional leading `-` followed
by decimal digits; the empty string is `0n`; anything else throws
(`none`). -/
def jsBigIntOfChars (l : List Char) : Option Int :=
  if l = [] then some 0
  else if l.headD ' ' = '-' then
    if l.tail ≠ [] ∧ l.tail.all isDigitChar then some (-(parseDecNat l.tail : Int)) else none
  else if l.all isDigitChar then some ((parseDecNat l : Int)) else none

/-- Floor of the base-2 logarithm, with explicit fuel for structural
recursion (fuel `n` always suffices since the argument halves). -/
def natLog2Aux : Nat → Nat → Nat
  | 0, _ => 0
  | fuel + 1, n => if n ≤ 1 then 0 else natLog2Aux fuel (n / 2) + 1

/-- Floor of the base-2 logarithm (`natLog2 0 = 0`). -/
def natLog2 (n : Nat) : Nat := natLog2Aux n n

/-- The IEEE-754 binary64 double nearest to the integer `s` (round to
nearest, ties to even), as an exact integer.  Integers with `|s| ≤ 2 ^ 53`
are represented exactly; above that, `s` is rounded to the nearest multiple
of the ulp `2 ^ (⌊log2 |s|⌋ - 52)`, ties going to the even significand.
This embeds the JS `number` sum `100 + percentageChange`: both operands are
exactly represented doubles, so IEEE addition returns exactly this rounding
of the exact integer sum.  The function is total: adding 100 to any finite
double cannot overflow to infinity (100 is far below half the ulp of the
top binade), and an integer delta that is itself not a finite double
corresponds to no program input. -/
def roundIntToDouble (s : Int) : Int :=
  let a := s.natAbs
  if a ≤ 2 ^ 53 then s
  else
    let e := natLog2 a
    let ulp := 2 ^ (e - 52)
    let q := a / ulp
    let r := a % ulp
    let q2 :=
      if 2 * r < ulp then q
      else if ulp < 2 * r then q + 1
      else if q % 2 = 0 then q else q + 1
    (if s < 0 then -1 else 1) * ((q2 * ulp : Nat) : Int)

/-! ## src/utils/DecimalConverter.ts -/

/-- `formatPrice(price, decimals)`: fixed-point value to display string.
Embeds `const divisor = 10n ** BigInt(decimals); const wholePart =
price / divisor; const fractionalPart = price % divisor; const
fractionalStr = fractionalPart.toString().padStart(decimals, '0');
return wholePart + "." + fractionalStr`. -/
def formatPrice (price : Int) (decimals : Nat) : String :=
  let divisor : Int := (10 : Int) ^ decimals
  let wholePart : Int := price.tdiv divisor
  let fractionalPart : Int := price.tmod divisor
  let fractionalStr : List Char := padStartZeros (intToDecChars fractionalPart) decimals
  String.mk (intToDecChars wholePart ++ '.' :: fractionalStr)

/-- `parsePrice(priceStr, decimals)`: display string to fixed-point value.
Embeds `const [whole, fractional = ''] = priceStr.split('.'); const
paddedFractional = fractional.padEnd(decimals, '0').slice(0, decimals);
return BigInt(whole + paddedFractional)` — `none` models the `BigInt`
constructor throwing on a malformed string. -/
def parsePrice (priceStr : String) (decimals : Nat) : Option Int :=
  let parts := splitOnDot priceStr.data
  let whole := parts.headD []
  let fractional := parts.getD 1 []
  let paddedFractional := (padEndZeros fractional decimals).take decimals
  jsBigIntOfChars (whole ++ paddedFractional)

/-! ## src/mock/PriceSetter.ts

The mock feed's stored value is the explicit state (an `Int`); a call to the
mock's `setLatestAnswer` updates it and is appended to the returned write log.
`getCurrentPrice` (latestRoundData with a latestAnswer fallback, both of which
return the injected mock's stored value) is embedded as reading the state.
Transaction submission and receipt waits are infallible in the model. -/

/-- `PriceChangeResult` (success flag plus old/new prices; the
`transactionHash` string returned by the chain is outside the model). -/
structure PriceChangeResult where
  success : Bool
  oldPrice : Int
  newPrice : Int
deriving DecidableEq, Repr

/-- `setPrice`: read the current value, send `setLatestAnswer(newPrice)`,
wait for the receipt, verify the read-back (always consistent in the
sequential model), and return the result.  Returns
(result, new feed state, write log). -/
def setPrice (st : Int) (newPrice : Int) : PriceChangeResult × Int × List Int :=
  ({ success := true, oldPrice := st, newPrice := newPrice }, newPrice, [newPrice])

/-- `setPriceWithPercentageChange`: zero-baseline guard, then
`const multiplier = 100 + percentageChange` — a JS `number` (IEEE double)
addition, embedded as `roundIntToDouble (100 + percentageChange)`, which is
exactly `100 + percentageChange` whenever `|100 + percentageChange| ≤ 2 ^ 53`
— and `newPrice = (currentPrice * BigInt(multiplier)) / 100n` delegated to
`setPrice`.  Returns (outcome, new feed state, write log). -/
def setPriceWithPercentageChange (feedAddress : String) (st : Int)
    (percentageChange : Int) : Except String PriceChangeResult × Int × List Int :=
  if st = 0 then
    (.error ("Cannot apply percentage change: current price is 0 at " ++ feedAddress), st, [])
  else
    let multiplier : Int := roundIntToDouble (100 + percentageChange)
    let newPrice : Int := (st * multiplier).tdiv 100
    let r := setPrice st newPrice
    (.ok r.1, r.2.1, r.2.2)

/-- The `direction` component of `setPriceWithBidirectionalFactor`'s result. -/
inductive Direction
  | forward
  | inverse
  | unknown
deriving DecidableEq, Repr

/-- `PriceChangeResult & { direction }`. -/
structure BidirResult where
  success : Bool
  oldPrice : Int
  newPrice : Int
  direction : Direction
deriving DecidableEq, Repr

/-- The JS condition `after && before && after < before` on two bigint
observer readings (`0n` is falsy; an absent reading is `undefined`). -/
def jsTruthyLt (afterV beforeV : Option Int) : Bool :=
  match afterV, beforeV with
  | some x, some y => x != 0 && y != 0 && decide (x < y)
  | _, _ => false

/-- `setPriceWithBidirectionalFactor`: zero-baseline guard; compute
`factor = (scale * BigInt(multiplier)) / 100n` where `multiplier = 100 +
percentageChange` is the same IEEE-double sum as in
`setPriceWithPercentageChange` (embedded via `roundIntToDouble`); read the
optional
`oracleValidator` baseline; apply `candidateA = currentPrice * factor / scale`
and return `forward` if the re-read observer strictly decreased (both readings
truthy); otherwise restore, apply `candidateB = currentPrice * scale / factor`
(a JS `RangeError` — modeled `.error "Division by zero"` — when `factor` is
`0n`), return `inverse` on a strict observer decrease; otherwise restore and
either re-apply `candidateA` with `direction = unknown, success = true` (no
validator) or report `success = false, direction = unknown` (validator
present).  The validator is an arbitrary effectful probe, embedded as a
function of its call index (0 = baseline, 1 = after A, 2 = after B).
Returns (outcome, new feed state, write log). -/
def setPriceWithBidirectionalFactor (feedAddress : String) (st : Int)
    (percentageChange : Int) (decimals : Nat) (oracleValidator : Option (Nat → Int)) :
    Except String BidirResult × Int × List Int :=
  if st = 0 then
    (.error ("Cannot apply percentage change: current price is 0 at " ++ feedAddress), st, [])
  else
    let scale : Int := (10 : Int) ^ decimals
    let multiplier : Int := roundIntToDouble (100 + percentageChange)
    let factor : Int := (scale * multiplier).tdiv 100
    let oraclePriceBefore := oracleValidator.map (fun f => f 0)
    let candidateA := (st * factor).tdiv scale
    let oraclePriceA := oracleValidator.map (fun f => f 1)
    if jsTruthyLt oraclePriceA oraclePriceBefore then
      (.ok { success := true, oldPrice := st, newPrice := candidateA, direction := .forward },
        candidateA, [candidateA])
    else if factor = 0 then
      (.error "Division by zero", st, [candidateA, st])
    else
      let candidateB := (st * scale).tdiv factor
      let oraclePriceB := oracleValidator.map (fun f => f 2)
      if jsTruthyLt oraclePriceB oraclePriceBefore then
        (.ok { success := true, oldPrice := st, newPrice := candidateB, direction := .inverse },
          candidateB, [candidateA, st, candidateB])
      else
        match oracleValidator with
        | none =>
          (.ok { success := true, oldPrice := st, newPrice := candidateA, direction := .unknown },
            candidateA, [candidateA, st, candidateB, st, candidateA])
        | some _ =>
          (.ok { success := false, oldPrice := st, newPrice := st, direction := .unknown },
            st, [candidateA, st, candidateB, st])

/-! ## src/validation/PriceVerifier.ts -/

/-- `PriceVerificationResult` (the `match` field is named `matched` here
because `match` is a Lean keyword; the log `message` string is omitted). -/
structure PriceVerificationResult where
  success : Bool
  expectedPrice : Int
  actualPrice : Int
  matched : Bool
deriving DecidableEq, Repr

/-- `verifyPriceChangeWithTolerance`: `tolerance = (expectedPrice *
BigInt(Math.floor(tolerancePercent * 100))) / 10000n`, match iff the actual
value lies in `[expected - tolerance, expected + tolerance]`; a read failure
is caught and reported as `success = false, matched = false`.
`tolInHundredths` is the integer `Math.floor(tolerancePercent * 100)` — the
only use the source makes of the floating-point `tolerancePercent` (IEEE
doubles give exactly 10 for `0.1` and 1 for `0.01`); `readResult` stands for
the `getCurrentPrice` call. -/
def verifyPriceChangeWithTolerance (readResult : Except String Int)
    (expectedPrice : Int) (tolInHundredths : Int) : PriceVerificationResult :=
  match readResult with
  | .ok actualPrice =>
    let tolerance := (expectedPrice * tolInHundredths).tdiv 10000
    let lowerBound := expectedPrice - tolerance
    let upperBound := expectedPrice + tolerance
    { success := true, expectedPrice := expectedPrice, actualPrice := actualPrice,
      matched := decide (lowerBound ≤ actualPrice) && decide (actualPrice ≤ upperBound) }
  | .error _ =>
    { success := false, expectedPrice := expectedPrice, actualPrice := 0, matched := false }

/-! ## src/discovery/FeedDetector.ts -/

/-- `FeedInfo` from src/discovery/types.ts: feed address, validated decimal
precision, optional human-readable description. -/
structure FeedInfo where
  address : String
  decimals : Nat
  description : Option String
deriving DecidableEq, Repr

/-- `DetectFeedConfig` (the `publicClient` handle is absorbed into the
adapters' embedded results below). -/
structure DetectFeedConfig where
  protocolAddress : String
  assetAddress : String

/-- `ProtocolAdapter`: a name plus the two async probes, embedded as
config-indexed `Except` computations (`.error` models a rejected promise,
carrying the thrown `Error`'s message). -/
structure ProtocolAdapter where
  name : String
  canHandle : DetectFeedConfig → Except String Bool
  discoverFeed : DetectFeedConfig → Except String FeedInfo

/-- One line of the aggregated discovery error:
`"  - " + e.adapter + ": " + e.error.message`. -/
def aggLine (e : String × String) : String := "  - " ++ e.1 ++ ": " ++ e.2

/-- JS `Array.prototype.join('\n')`. -/
def joinLines : List String → String
  | [] => ""
  | [x] => x
  | x :: y :: rest => x ++ "\n" ++ joinLines (y :: rest)

/-- The aggregated error message thrown when no adapter succeeds:
`"Failed to detect price feed. Tried " + adapters.length + " adapters:\n"`
followed by the recorded per-adapter lines joined with newlines. -/
def aggregatedMessage (total : Nat) (errors : List (String × String)) : String :=
  "Failed to detect price feed. " ++ ("Tried " ++ natToDecString total ++ " adapters") ++
    ":\n" ++ joinLines (errors.map aggLine)

/-- The `for (const adapter of adapters)` loop of `detectPriceFeed`, with the
accumulated `errors` array made explicit: a raising `canHandle` records the
adapter and continues; a false `canHandle` continues silently; a true
`canHandle` tries `discoverFeed`, returning its result immediately on success
and recording the failure otherwise; an exhausted list throws the aggregated
message (`total` is the length of the full original adapter list). -/
def detectGo (cfg : DetectFeedConfig) (total : Nat) :
    List ProtocolAdapter → List (String × String) → Except String FeedInfo
  | [], errors => .error (aggregatedMessage total errors)
  | adapter :: rest, errors =>
    match adapter.canHandle cfg with
    | .error e => detectGo cfg total rest (errors ++ [(adapter.name, e)])
    | .ok false => detectGo cfg total rest errors
    | .ok true =>
      match adapter.discoverFeed cfg with
      | .ok feedInfo => .ok feedInfo
      | .error e => detectGo cfg total rest (errors ++ [(adapter.name, e)])

/-- `detectPriceFeed(config, adapters)`. -/
def detectPriceFeed (cfg : DetectFeedConfig) (adapters : List ProtocolAdapter) :
    Except String FeedInfo :=
  detectGo cfg adapters.length adapters []

/-- Whether an adapter is the loop's first-success candidate: `canHandle`
returns true and `discoverFeed` succeeds, yielding this `FeedInfo`. -/
def succeedsWith (cfg : DetectFeedConfig) (a : ProtocolAdapter) : Option FeedInfo :=
  match a.canHandle cfg with
  | .ok true =>
    match a.discoverFeed cfg with
    | .ok feedInfo => some feedInfo
    | .error _ => none
  | _ => none

/-- The (adapter name, error message) pair an adapter contributes to the
aggregated error: its `canHandle` raised, or `canHandle` returned true and
`discoverFeed` raised; `none` when the adapter succeeds or opts out. -/
def failsWith (cfg : DetectFeedConfig) (a : ProtocolAdapter) : Option (String × String) :=
  match a.canHandle cfg with
  | .error e => some (a.name, e)
  | .ok false => none
  | .ok true =>
    match a.discoverFeed cfg with
    | .ok _ => none
    | .error e => some (a.name, e)

/-! ## src/api/SimpleAPI.ts (first revision in the file, the one the claims
cite): the `setOraclePrice` facade and `resetOraclePrice`.

The module-level `originalPrices` map is threaded explicitly as an
association list; the chain is the single discovered feed's stored value plus
an environment fixing the outcomes of discovery, mock deployment and the
protocol-level price read.  Every chain interaction the facade performs is
appended, in order, to a returned `ChainAction` trace. -/

/-- One chain interaction performed by the facade. -/
inductive ChainAction
  | detectFeed
  | readFeed
  | deployMock
  | sendSetPriceTx (value : Int)
  | protocolRead
deriving DecidableEq, Repr

/-- Outcomes of the collaborator subsystems invoked by the facade. -/
structure SimpleEnv where
  detectResult : Except String FeedInfo
  deployResult : Except String Unit
  protocolPrice : Except String Int

/-- `SetOraclePriceOptions` (rpcUrl / protocol / privateKey plumbing omitted;
`newPrice` is `string | bigint`). -/
structure SetOraclePriceOptions where
  network : String
  protocolAddress : String
  assetAddress : String
  newPrice : Option (String ⊕ Int)
  priceChangePercent : Option Int
  decimals : Option Nat

/-- `SetOraclePriceResult`; `priceChangeBp` is the exact basis-point change
`(finalPrice - oldPrice) * 10000n / oldPrice` before the source's final
floating-point division by 100 for display. -/
structure SetOraclePriceResult where
  success : Bool
  feedAddress : String
  oldPrice : Int
  newPrice : Int
  priceChangeBp : Int
  verified : Bool
deriving DecidableEq, Repr

/-- The cache key `network + ":" + protocolAddress + ":" + assetAddress`. -/
def cacheKey (network protocolAddress assetAddress : String) : String :=
  network ++ ":" ++ protocolAddress ++ ":" ++ assetAddress

/-- JS `decimals || feedInfo.decimals` (`0` is falsy). -/
def jsOrDecimals (explicit : Option Nat) (fallback : Nat) : Nat :=
  match explicit with
  | some d => if d = 0 then fallback else d
  | none => fallback

/-- JS truthiness of `originalPrices.get(key)`: `undefined` and `0n` are
falsy. -/
def jsFalsyOptInt : Option Int → Bool
  | none => true
  | some v => v == 0

/-- `setOraclePrice` (first revision): create clients; discover the feed;
read the current price; cache it under the composite key if absent; deploy
the mock; then set the price by percentage (`setPriceWithPercentageChange`)
or absolutely (`parsePrice` on a string input, then `setPrice`), throwing
`'Either newPrice or priceChangePercent must be provided'` when neither was
given; verify the feed value; verify the protocol-visible price (read
failures are caught and reported as a non-match); and return the result.
Returns (outcome, feed state, originalPrices cache, chain-action trace). -/
def setOraclePrice (env : SimpleEnv) (feedValue : Int)
    (cache : List (String × Int)) (opts : SetOraclePriceOptions) :
    Except String SetOraclePriceResult × Int × List (String × Int) × List ChainAction :=
  let trace0 : List ChainAction := [.detectFeed]
  match env.detectResult with
  | .error e => (.error e, feedValue, cache, trace0)
  | .ok feedInfo =>
    let feedDecimals := jsOrDecimals opts.decimals feedInfo.decimals
    let trace1 := trace0 ++ [ChainAction.readFeed]
    let oldPrice := feedValue
    let key := cacheKey opts.network opts.protocolAddress opts.assetAddress
    let cache1 := if (List.lookup key cache).isSome then cache else cache ++ [(key, oldPrice)]
    let trace2 := trace1 ++ [ChainAction.deployMock]
    match env.deployResult with
    | .error e => (.error e, feedValue, cache1, trace2)
    | .ok _ =>
      let finish := fun (finalPrice st2 : Int) (trace3 : List ChainAction) =>
        let trace4 := trace3 ++ [ChainAction.readFeed]
        if st2 = finalPrice then
          let trace5 := trace4 ++ [ChainAction.protocolRead]
          let protocolMatch :=
            match env.protocolPrice with
            | .ok p => p == finalPrice
            | .error _ => false
          if oldPrice = 0 then (.error "Division by zero", st2, cache1, trace5)
          else
            (.ok { success := true, feedAddress := feedInfo.address, oldPrice := oldPrice,
                   newPrice := finalPrice,
                   priceChangeBp := ((finalPrice - oldPrice) * 10000).tdiv oldPrice,
                   verified := protocolMatch },
              st2, cache1, trace5)
        else (.error "Feed verification failed", st2, cache1, trace4)
      match opts.priceChangePercent with
      | some pct =>
        let r := setPriceWithPercentageChange feedInfo.address feedValue pct
        let acts := ChainAction.readFeed :: r.2.2.map ChainAction.sendSetPriceTx
        match r.1 with
        | .error e => (.error e, feedValue, cache1, trace2 ++ acts)
        | .ok res => finish res.newPrice r.2.1 (trace2 ++ acts)
      | none =>
        match opts.newPrice with
        | some np =>
          let parsed : Option Int :=
            match np with
            | .inl s => parsePrice s feedDecimals
            | .inr v => some v
          match parsed with
          | none => (.error "Cannot convert string to a BigInt", feedValue, cache1, trace2)
          | some parsedPrice =>
            let r := setPrice feedValue parsedPrice
            let acts := ChainAction.readFeed :: r.2.2.map ChainAction.sendSetPriceTx
            finish r.1.newPrice r.2.1 (trace2 ++ acts)
        | none =>
          (.error "Either newPrice or priceChangePercent must be provided",
            feedValue, cache1, trace2)

/-- `ResetOraclePriceOptions` (same plumbing omissions). -/
structure ResetOraclePriceOptions where
  network : String
  protocolAddress : String
  assetAddress : String
  decimals : Option Nat

/-- `resetOraclePrice`: look up the cached original price; `if
(!originalPrice) throw` — JS truthiness, so both a missing key and a cached
`0n` throw — otherwise call `setOraclePrice` with the cached value as the
absolute `newPrice`. -/
def resetOraclePrice (env : SimpleEnv) (feedValue : Int)
    (cache : List (String × Int)) (opts : ResetOraclePriceOptions) :
    Except String SetOraclePriceResult × Int × List (String × Int) × List ChainAction :=
  let key := cacheKey opts.network opts.protocolAddress opts.assetAddress
  let originalPrice := List.lookup key cache
  if jsFalsyOptInt originalPrice then
    (.error "No original price found. Set price first before resetting.", feedValue, cache, [])
  else
    setOraclePrice env feedValue cache
      { network := opts.network, protocolAddress := opts.protocolAddress,
        assetAddress := opts.assetAddress, newPrice := some (Sum.inr (originalPrice.getD 0)),
        priceChangePercent := none, decimals := opts.decimals }

/-! ## Keccak-256

Modelled from the spec: `calculateStorageSlot` (src StorageHelper) calls the
viem library's `keccak256`, whose implementation is not part of this
repository; the spec describes it as "a cryptographic hash" of the padded
concatenation.  The standard Keccak-256 permutation (Keccak-f[1600], rate
1088, multi-rate padding `0x01 … 0x80`) is embedded here executably over
bytes as `Nat`s and 64-bit lanes as `Nat`s reduced modulo `2 ^ 64`.  No
theorem below depends on the permutation's internals — only on `keccak256`
being a fixed function of its input bytes. -/

namespace Keccak

/-- Rotate a 64-bit lane left by `r` bits. -/
def rotl64 (w r : Nat) : Nat :=
  let r := r % 64
  (w % 2 ^ (64 - r)) * 2 ^ r + w / 2 ^ (64 - r)

/-- Bitwise complement of a 64-bit lane. -/
def not64 (w : Nat) : Nat := 18446744073709551615 - w

/-- Lane `(x, y)` of a 25-lane state (index `x + 5 * y`, coordinates mod 5). -/
def lane (s : List Nat) (x y : Nat) : Nat := s.getD (x % 5 + 5 * (y % 5)) 0

/-- The θ step: xor each lane with the parity of two neighbouring columns. -/
def theta (s : List Nat) : List Nat :=
  let c := fun x => (lane s x 0).xor ((lane s x 1).xor ((lane s x 2).xor
    ((lane s x 3).xor (lane s x 4))))
  let d := fun x => (c ((x + 4) % 5)).xor (rotl64 (c ((x + 1) % 5)) 1)
  (List.range 25).map (fun i => (s.getD i 0).xor (d (i % 5)))

/-- The ρ rotation offsets, laid out x-major (the offset for lane `(x, y)`
sits at index `5 * x + y`). -/
def rhoOffsets : List Nat :=
  [0, 36, 3, 41, 18,
   1, 44, 10, 45, 2,
   62, 6, 43, 15, 61,
   28, 55, 25, 21, 56,
   27, 20, 39, 8, 14]

/-- The combined ρ and π steps: target `(x, y)` receives the rotated source
lane `((x + 3 * y) % 5, x)`. -/
def rhoPi (s : List Nat) : List Nat :=
  (List.range 25).map (fun i =>
    let tx := i % 5
    let ty := i / 5
    let sx := (tx + 3 * ty) % 5
    let sy := tx
    rotl64 (lane s sx sy) (rhoOffsets.getD (5 * sx + sy) 0))

/-- The χ step: nonlinear row mixing. -/
def chi (b : List Nat) : List Nat :=
  (List.range 25).map (fun i =>
    let x := i % 5
    let y := i / 5
    (lane b x y).xor (Nat.land (not64 (lane b (x + 1) y)) (lane b (x + 2) y)))

/-- The 24 ι round constants of Keccak-f[1600], written in decimal (the low
halves are the usual `0x…8082`-style hex patterns; `9223372036854775808` is
the high bit `2 ^ 63`). -/
def roundConstants : List Nat :=
  [1, 32898,
   9223372036854808714, 9223372039002292224,
   32907, 2147483649,
   9223372039002292353, 9223372036854808585,
   138, 136,
   2147516425, 2147483658,
   2147516555, 9223372036854775947,
   9223372036854808713, 9223372036854808579,
   9223372036854808578, 9223372036854775936,
   32778, 9223372039002259466,
   9223372039002292353, 9223372036854808704,
   2147483649, 9223372039002292232]

/-- One Keccak round: θ, ρ, π, χ, then ι (xor the round constant into lane
`(0, 0)`). -/
def keccakRound (s : List Nat) (rc : Nat) : List Nat :=
  match chi (rhoPi (theta s)) with
  | [] => []
  | a :: rest => a.xor rc :: rest

/-- The full 24-round Keccak-f[1600] permutation. -/
def keccakF (s : List Nat) : List Nat := roundConstants.foldl keccakRound s

/-- The sponge rate for Keccak-256, in bytes. -/
def rateBytes : Nat := 136

/-- Multi-rate padding `0x01 0x00 … 0x80` (a single `0x81` byte when one
byte of padding is needed). -/
def padMessage (msg : List Nat) : List Nat :=
  let padLen := rateBytes - msg.length % rateBytes
  msg ++ (if padLen = 1 then [0x81] else 0x01 :: (List.replicate (padLen - 2) 0 ++ [0x80]))

/-- A little-endian 64-bit lane from up to eight bytes. -/
def bytesToLane (bytes : List Nat) : Nat :=
  bytes.foldr (fun b acc => acc * 256 + b) 0

/-- The 17 lanes of one 136-byte rate block. -/
def blockToLanes (block : List Nat) : List Nat :=
  (List.range 17).map (fun i => bytesToLane ((block.drop (8 * i)).take 8))

/-- Absorb one rate block: xor its lanes into the state and permute. -/
def absorbBlock (s : List Nat) (block : List Nat) : List Nat :=
  let lanes := blockToLanes block
  keccakF ((List.range 25).map (fun i => (s.getD i 0).xor (lanes.getD i 0)))

/-- Absorb the padded message block by block (fuel-structured recursion; the
fuel is an upper bound on the number of blocks). -/
def absorbChunks : Nat → List Nat → List Nat → List Nat
  | 0, s, _ => s
  | fuel + 1, s, bytes =>
    if bytes = [] then s
    else absorbChunks fuel (absorbBlock s (bytes.take rateBytes)) (bytes.drop rateBytes)

/-- The eight little-endian bytes of a 64-bit lane. -/
def laneToBytes (w : Nat) : List Nat := (List.range 8).map (fun i => w / 256 ^ i % 256)

/-- Keccak-256 of a byte string: absorb the padded input into an all-zero
state and squeeze the first 32 bytes. -/
def keccak256 (msg : List Nat) : List Nat :=
  let padded := padMessage msg
  let s := absorbChunks (padded.length / rateBytes + 1) (List.replicate 25 0) padded
  ((s.take 4).map laneToBytes).flatten

end Keccak

/-! ## src/utils/StorageHelper.ts -/

/-- A `calculateStorageSlot` key: an `Address` (a 20-byte value, passed as a
hex string in the source) or a `bigint` (nonnegative: viem's `toHex` rejects
negative bigints). -/
inductive StorageKey
  | addr (value : Nat)
  | int (value : Nat)
deriving DecidableEq, Repr

/-- The `l`-byte big-endian representation of `v < 256 ^ l` (viem's
`pad(toHex v, size: l)`). -/
def natPadBE : Nat → Nat → List Nat
  | 0, _ => []
  | l + 1, v => v / 256 ^ l :: natPadBE l (v % 256 ^ l)

/-- 32-byte left-padded big-endian bytes of `v`. -/
def natToBytes32 (v : Nat) : List Nat := natPadBE 32 v

/-- The big-endian numeric value of a byte list. -/
def bytesToNatBE (l : List Nat) : Nat := l.foldl (fun acc b => acc * 256 + b) 0

/-- `calculateStorageSlot(key, mapSlot)`: left-pad the key (an address, or an
integer) and the base slot to 32 bytes — viem's `pad` throws (`none`) when
the value exceeds the target size — and return
`keccak256(encodePacked(['bytes32','bytes32'], [keyHex, slotHex]))`, i.e. the
hash of the 64-byte concatenation, key first. -/
def calculateStorageSlot (key : StorageKey) (mapSlot : Nat) : Option (List Nat) :=
  let keyBytes : Option (List Nat) :=
    match key with
    | .addr a => if a < 2 ^ 160 then some (natToBytes32 a) else none
    | .int n => if n < 2 ^ 256 then some (natToBytes32 n) else none
  match keyBytes with
  | none => none
  | some kb =>
    if mapSlot < 2 ^ 256 then some (Keccak.keccak256 (kb ++ natToBytes32 mapSlot)) else none

/-! ## Theorems -/

/-- The JS truthiness-guarded comparison on two present bigint readings. -/
theorem jsTruthyLt_some_iff (x y : Int) :
    jsTruthyLt (some x) (some y) = true ↔ (x ≠ 0 ∧ y ≠ 0 ∧ x < y) := by
  simp [jsTruthyLt, Bool.and_eq_true, bne_iff_ne, decide_eq_true_eq, and_assoc]

/-- C6: a feed whose current value reads as exactly 0 makes
`setPriceWithPercentageChange` and `setPriceWithBidirectionalFactor` fail
with the domain error `Cannot apply percentage change: current price is 0`
(suffixed with the feed address) before computing any new value, and with an
empty write log — no `setLatestAnswer` transaction is issued. -/
theorem percentage_zero_baseline_guard (feedAddress : String) (percentageChange : Int)
    (decimals : Nat) (oracleValidator : Option (Nat → Int)) :
    setPriceWithPercentageChange feedAddress 0 percentageChange =
      (.error ("Cannot apply percentage change: current price is 0 at " ++ feedAddress),
        0, []) ∧
    setPriceWithBidirectionalFactor feedAddress 0 percentageChange decimals oracleValidator =
      (.error ("Cannot apply percentage change: current price is 0 at " ++ feedAddress),
        0, []) :=
  ⟨rfl, rfl⟩

/-- Integer sums within the 53-bit significand range are represented
exactly by the double addition. -/
theorem roundIntToDouble_of_exact (s : Int) (h : s.natAbs ≤ 2 ^ 53) :
    roundIntToDouble s = s := by
  simp only [roundIntToDouble]
  rw [if_pos h]

/-- C5 counterexample: the written value is not
`floor(B * (100 + P) / 100)` computed with exact integer arithmetic for
every non-zero baseline and every delta, on two counts.  Truncation: on
`B = 7`, `P = -150` the JS bigint division truncates toward zero and writes
`-3`, while `floor(-3.5) = -4`.  Rounding: on `B = 100`, `P = 2 ^ 53 - 1`
the source's IEEE-double sum `100 + P` rounds to `2 ^ 53 + 100`, so the
program writes `9007199254741092`, while exact integer arithmetic on
`B * (100 + P) / 100` gives `9007199254741091`. -/
theorem setPriceWithPercentageChange_not_floor :
    ((setPriceWithPercentageChange "0xfeed" 7 (-150)).1 =
        .ok { success := true, oldPrice := 7, newPrice := -3 } ∧
      Int.fdiv (7 * (100 + (-150))) 100 = -4) ∧
    ((setPriceWithPercentageChange "0xfeed" 100 (2 ^ 53 - 1)).1 =
        .ok { success := true, oldPrice := 100, newPrice := 9007199254741092 } ∧
      ((100 : Int) * (100 + (2 ^ 53 - 1))).tdiv 100 ≠ 9007199254741092) := by decide

/-- C5 (amended): for every non-zero baseline `B` and every integer delta
`P` whose multiplier sum stays in the range where the source's IEEE-double
addition is exact (`|100 + P| ≤ 2 ^ 53`), `setPriceWithPercentageChange`
writes `B * (100 + P) / 100` computed with exact integer arithmetic and
division truncating toward zero; this equals `floor(B * (100 + P) / 100)`
whenever `B * (100 + P) ≥ 0` (in particular for a positive baseline and
`P ≥ -100`), and `B = 100000000000` with `P = -20` yields `80000000000`. -/
theorem setPriceWithPercentageChange_truncating (feedAddress : String) (B P : Int)
    (hB : B ≠ 0) (hP : (100 + P).natAbs ≤ 2 ^ 53) :
    (setPriceWithPercentageChange feedAddress B P).1 =
      .ok { success := true, oldPrice := B, newPrice := (B * (100 + P)).tdiv 100 } ∧
    (0 ≤ B * (100 + P) → (B * (100 + P)).tdiv 100 = Int.fdiv (B * (100 + P)) 100) ∧
    (setPriceWithPercentageChange "0xfeed" 100000000000 (-20)).1 =
      .ok { success := true, oldPrice := 100000000000, newPrice := 80000000000 } := by
  refine ⟨?_, fun h => ?_, by decide⟩
  · simp [setPriceWithPercentageChange, setPrice, hB, roundIntToDouble_of_exact _ hP]
  · rw [Int.tdiv_eq_ediv h (by norm_num), Int.fdiv_eq_ediv _ (by norm_num)]

/-- Witness for `setPriceWithPercentageChange_truncating` at `B = 7`,
`P = 25`. -/
theorem setPriceWithPercentageChange_truncating_witness :
    (7 : Int) ≠ 0 ∧ ((100 : Int) + 25).natAbs ≤ 2 ^ 53 ∧
    (setPriceWithPercentageChange "0xfeed" 7 25).1 =
      .ok { success := true, oldPrice := 7, newPrice := ((7 : Int) * (100 + 25)).tdiv 100 } :=
  ⟨by decide, by decide,
    (setPriceWithPercentageChange_truncating "0xfeed" 7 25 (by decide) (by decide)).1⟩

/-- C8: with a successful read, `verifyPriceChangeWithTolerance` reports a
match exactly when the actual value lies in
`[expected - tolerance, expected + tolerance]` for
`tolerance = expected * floor(tolerancePercent * 100) / 10000` in integer
arithmetic; in particular `expected = 1000`, `actual = 1001` matches at 0.1%
(`floor(0.1 * 100) = 10`) and does not match at 0.01%
(`floor(0.01 * 100) = 1`, so the tolerance rounds to 0). -/
theorem verifyPriceChangeWithTolerance_band :
    (∀ e a t : Int,
        (verifyPriceChangeWithTolerance (.ok a) e t).matched = true ↔
          (e - (e * t).tdiv 10000 ≤ a ∧ a ≤ e + (e * t).tdiv 10000)) ∧
    (verifyPriceChangeWithTolerance (.ok 1001) 1000 10).matched = true ∧
    (verifyPriceChangeWithTolerance (.ok 1001) 1000 1).matched = false := by
  refine ⟨fun e a t => ?_, by decide, by decide⟩
  simp [verifyPriceChangeWithTolerance, Bool.and_eq_true, decide_eq_true_eq]

/-- C1 counterexample: with an observer supplied, `percent = +10` and an
observer that moves up from 100 to 110 — i.e. the observed value moves in
the requested (increasing) direction after `candidateA` is applied — the
function does not return `direction = "forward"`: its success test only
accepts a strict decrease, so it ends with `succeeded = false`,
`direction = "unknown"`. -/
theorem setPriceWithBidirectionalFactor_requested_increase_not_forward :
    (setPriceWithBidirectionalFactor "0xfeed" 10000000000 10 8
        (some (fun n => if n = 0 then (100 : Int) else 110))).1 =
      .ok { success := false, oldPrice := 10000000000, newPrice := 10000000000,
            direction := .unknown } ∧
    ((0 : Int) < 10 ∧ (100 : Int) < 110) := by decide

/-- C1 (amended): with an external observer supplied and a non-zero
baseline, after applying `candidateA = oldValue * factor / scale` the
observer is read again, and the operation returns success with
`direction = "forward"` exactly when both observer readings are non-zero
(JS truthiness) and the post-write reading strictly decreased relative to
the baseline reading — regardless of the sign of the requested `percent`. -/
theorem setPriceWithBidirectionalFactor_forward_iff_observed_decrease
    (feedAddress : String) (st percentageChange : Int) (decimals : Nat) (f : Nat → Int)
    (hst : st ≠ 0) :
    (∃ r : BidirResult,
        (setPriceWithBidirectionalFactor feedAddress st percentageChange decimals
            (some f)).1 = .ok r ∧
          r.success = true ∧ r.direction = .forward) ↔
      (f 1 ≠ 0 ∧ f 0 ≠ 0 ∧ f 1 < f 0) := by
  rw [← jsTruthyLt_some_iff]
  unfold setPriceWithBidirectionalFactor
  rw [if_neg hst]
  simp only [Option.map_some']
  cases h1 : jsTruthyLt (some (f 1)) (some (f 0)) with
  | true =>
    simp only [h1, if_true]
    simp
  | false =>
    simp only [h1, Bool.false_eq_true, if_false]
    constructor
    · rintro ⟨r, hr, _, hd⟩
      by_cases hf :
        ((10 : Int) ^ decimals * roundIntToDouble (100 + percentageChange)).tdiv 100 = 0
      · rw [if_pos hf] at hr
        exact absurd hr (by simp)
      · rw [if_neg hf] at hr
        cases h2 : jsTruthyLt (some (f 2)) (some (f 0)) with
        | true =>
          rw [h2] at hr
          simp only [if_true] at hr
          cases Except.ok.inj hr
          exact absurd hd (by simp)
        | false =>
          rw [h2] at hr
          simp only [Bool.false_eq_true, if_false] at hr
          cases Except.ok.inj hr
          exact absurd hd (by simp)
    · intro hc
      exact hc.elim

/-- Witness for `setPriceWithBidirectionalFactor_forward_iff_observed_decrease`
at a concrete decreasing observer. -/
theorem setPriceWithBidirectionalFactor_forward_iff_observed_decrease_witness :
    (100 : Int) ≠ 0 ∧
    (∃ r : BidirResult,
        (setPriceWithBidirectionalFactor "0xfeed" 100 (-10) 8
            (some (fun n => if n = 0 then (50 : Int) else 40))).1 = .ok r ∧
          r.success = true ∧ r.direction = .forward) :=
  ⟨by decide,
    (setPriceWithBidirectionalFactor_forward_iff_observed_decrease "0xfeed" 100 (-10) 8
      (fun n => if n = 0 then (50 : Int) else 40) (by decide)).2 ⟨by decide, by decide, by decide⟩⟩

/-- C2 counterexample: calling `setOraclePrice` with neither `newPrice` nor
`priceChangePercent` does reach the error
`'Either newPrice or priceChangePercent must be provided'`, but only after
feed discovery, a current-price read and a mock deployment have been
performed (the returned chain-action trace is
`[detectFeed, readFeed, deployMock]`, and the original price was cached) —
not immediately before any chain interaction as claimed. -/
theorem setOraclePrice_missing_input_after_chain_interaction :
    setOraclePrice
        { detectResult := .ok { address := "0xfeed", decimals := 8, description := none },
          deployResult := .ok (), protocolPrice := .ok 0 }
        42 []
        { network := "base", protocolAddress := "0xp", assetAddress := "0xa",
          newPrice := none, priceChangePercent := none, decimals := none } =
      (.error "Either newPrice or priceChangePercent must be provided", 42,
        [("base:0xp:0xa", 42)], [.detectFeed, .readFeed, .deployMock]) := by decide

/-- C2 (amended): when neither `newPrice` nor `priceChangePercent` is given
and discovery and deployment succeed, `setOraclePrice` fails with the
precondition error `'Either newPrice or priceChangePercent must be
provided'`, but only after performing feed discovery, a current-price read
(whose value is cached under the composite key if absent) and a mock
deployment; no price-setting transaction is attempted. -/
theorem setOraclePrice_missing_input_error_after_deploy
    (env : SimpleEnv) (feedValue : Int) (cache : List (String × Int))
    (opts : SetOraclePriceOptions) (fi : FeedInfo)
    (hnp : opts.newPrice = none) (hpcp : opts.priceChangePercent = none)
    (hdet : env.detectResult = .ok fi) (hdep : env.deployResult = .ok ()) :
    setOraclePrice env feedValue cache opts =
      (.error "Either newPrice or priceChangePercent must be provided", feedValue,
        (if (List.lookup (cacheKey opts.network opts.protocolAddress opts.assetAddress)
              cache).isSome then cache
         else cache ++
           [(cacheKey opts.network opts.protocolAddress opts.assetAddress, feedValue)]),
        [.detectFeed, .readFeed, .deployMock]) := by
  simp [setOraclePrice, hdet, hdep, hnp, hpcp]

/-- Witness for `setOraclePrice_missing_input_error_after_deploy` with a
pre-populated cache. -/
theorem setOraclePrice_missing_input_error_after_deploy_witness :
    (Except.ok { address := "0xmock", decimals := 18, description := some "ETH / USD" } :
        Except String FeedInfo) =
      .ok { address := "0xmock", decimals := 18, description := some "ETH / USD" } ∧
    setOraclePrice
        { detectResult :=
            .ok { address := "0xmock", decimals := 18, description := some "ETH / USD" },
          deployResult := .ok (), protocolPrice := .error "revert" }
        7 [("base:0xp:0xa", 5)]
        { network := "base", protocolAddress := "0xp", assetAddress := "0xa",
          newPrice := none, priceChangePercent := none, decimals := some 8 } =
      (.error "Either newPrice or priceChangePercent must be provided", 7,
        (if (List.lookup (cacheKey "base" "0xp" "0xa")
              [("base:0xp:0xa", (5 : Int))]).isSome then [("base:0xp:0xa", (5 : Int))]
         else [("base:0xp:0xa", (5 : Int))] ++ [(cacheKey "base" "0xp" "0xa", 7)]),
        [.detectFeed, .readFeed, .deployMock]) :=
  ⟨rfl,
    setOraclePrice_missing_input_error_after_deploy _ 7 _ _
      { address := "0xmock", decimals := 18, description := some "ETH / USD" }
      rfl rfl rfl rfl⟩

/-- C10: if the original-price cache maps the composite key
`network:protocolAddress:assetAddress` to the value `0`, then
`resetOraclePrice` for that key throws `'No original price found. Set price
first before resetting.'` instead of resetting the feed to 0: its presence
check `if (!originalPrice)` tests JS truthiness of the cached bigint, and
`0n` is falsy, so a present key with value 0 is treated like a missing key.
No chain interaction happens (empty trace), and the state and cache are
unchanged. -/
theorem resetOraclePrice_zero_cached_throws
    (env : SimpleEnv) (feedValue : Int) (cache : List (String × Int))
    (opts : ResetOraclePriceOptions)
    (h : List.lookup (cacheKey opts.network opts.protocolAddress opts.assetAddress) cache =
      some 0) :
    resetOraclePrice env feedValue cache opts =
      (.error "No original price found. Set price first before resetting.",
        feedValue, cache, []) := by
  simp [resetOraclePrice, h, jsFalsyOptInt]

/-- Witness for `resetOraclePrice_zero_cached_throws`: a cache whose first
observed price for the key was 0. -/
theorem resetOraclePrice_zero_cached_throws_witness :
    List.lookup (cacheKey "base" "0xp" "0xa") [("base:0xp:0xa", (0 : Int))] = some 0 ∧
    resetOraclePrice
        { detectResult := .ok { address := "0xfeed", decimals := 8, description := none },
          deployResult := .ok (), protocolPrice := .ok 0 }
        7 [("base:0xp:0xa", 0)]
        { network := "base", protocolAddress := "0xp", assetAddress := "0xa",
          decimals := none } =
      (.error "No original price found. Set price first before resetting.",
        7, [("base:0xp:0xa", 0)], []) :=
  ⟨by decide, resetOraclePrice_zero_cached_throws _ _ _ _ (by decide)⟩

/-- A list head whose `canHandle`-true / `discoverFeed`-success pair yields
`fi` makes the discovery loop return `fi` at once, whatever the accumulated
errors and the remaining adapters. -/
theorem detectGo_of_succeeds (cfg : DetectFeedConfig) (total : Nat) (a : ProtocolAdapter)
    (rest : List ProtocolAdapter) (errors : List (String × String)) (fi : FeedInfo)
    (h : succeedsWith cfg a = some fi) :
    detectGo cfg total (a :: rest) errors = .ok fi := by
  unfold succeedsWith at h
  cases hch : a.canHandle cfg with
  | error e => rw [hch] at h; simp at h
  | ok b =>
    cases b with
    | false => rw [hch] at h; simp at h
    | true =>
      rw [hch] at h
      cases hdf : a.discoverFeed cfg with
      | error e => rw [hdf] at h; simp at h
      | ok f2 =>
        rw [hdf] at h
        simp only [Option.some.injEq] at h
        unfold detectGo
        rw [hch, hdf, h]

/-- The discovery loop, started with any error accumulator, returns `fi`
whenever every adapter before `a` fails to be a first success and `a`
succeeds with `fi`. -/
theorem detectGo_first_success (cfg : DetectFeedConfig) (total : Nat)
    (pre : List ProtocolAdapter) (a : ProtocolAdapter) (post : List ProtocolAdapter)
    (fi : FeedInfo)
    (hpre : pre.all (fun b => (succeedsWith cfg b).isNone) = true)
    (ha : succeedsWith cfg a = some fi) :
    ∀ errors, detectGo cfg total (pre ++ a :: post) errors = .ok fi := by
  induction pre with
  | nil =>
    intro errors
    simpa using detectGo_of_succeeds cfg total a post errors fi ha
  | cons b pre ih =>
    rw [List.all_cons, Bool.and_eq_true] at hpre
    have hb : succeedsWith cfg b = none := Option.isNone_iff_eq_none.mp hpre.1
    intro errors
    rw [List.cons_append]
    unfold succeedsWith at hb
    cases hch : b.canHandle cfg with
    | error e =>
      unfold detectGo
      rw [hch]
      exact ih hpre.2 _
    | ok bb =>
      cases bb with
      | false =>
        unfold detectGo
        rw [hch]
        exact ih hpre.2 _
      | true =>
        rw [hch] at hb
        cases hdf : b.discoverFeed cfg with
        | ok f2 => rw [hdf] at hb; simp at hb
        | error e =>
          unfold detectGo
          rw [hch, hdf]
          exact ih hpre.2 _

/-- C3: the discovery loop tries adapters in order; every adapter that is
not a first success — its `canHandle` raised or returned false, or its
`discoverFeed` raised — is skipped and the next adapter is tried; the first
adapter whose `canHandle` returns true and whose `discoverFeed` succeeds
determines the result, which is returned immediately for every possible
remainder of the list (the trailing adapters are irrelevant to the result),
and the aggregated-error path is not triggered (the outcome is `.ok`). -/
theorem detectPriceFeed_first_success (cfg : DetectFeedConfig)
    (pre : List ProtocolAdapter) (a : ProtocolAdapter) (post : List ProtocolAdapter)
    (fi : FeedInfo)
    (hpre : pre.all (fun b => (succeedsWith cfg b).isNone) = true)
    (ha : succeedsWith cfg a = some fi) :
    detectPriceFeed cfg (pre ++ a :: post) = .ok fi :=
  detectGo_first_success cfg (pre ++ a :: post).length pre a post fi hpre ha []

/-- Witness for `detectPriceFeed_first_success`: the spec's fallback
scenario — adapter A fails `canHandle`, adapter B succeeds — evaluated
concretely. -/
theorem detectPriceFeed_first_success_witness :
    [ProtocolAdapter.mk "Failing Adapter" (fun _ => .error "First adapter error")
        (fun _ => .error "unreachable")].all
      (fun b => (succeedsWith { protocolAddress := "0xp", assetAddress := "0xa" } b).isNone)
      = true ∧
    succeedsWith { protocolAddress := "0xp", assetAddress := "0xa" }
      (ProtocolAdapter.mk "Working Adapter" (fun _ => .ok true)
        (fun _ => .ok { address := "0xfeed", decimals := 8, description := none })) =
      some { address := "0xfeed", decimals := 8, description := none } ∧
    detectPriceFeed { protocolAddress := "0xp", assetAddress := "0xa" }
      [ProtocolAdapter.mk "Failing Adapter" (fun _ => .error "First adapter error")
          (fun _ => .error "unreachable"),
        ProtocolAdapter.mk "Working Adapter" (fun _ => .ok true)
          (fun _ => .ok { address := "0xfeed", decimals := 8, description := none })] =
      .ok { address := "0xfeed", decimals := 8, description := none } :=
  ⟨by decide, by decide,
    detectPriceFeed_first_success { protocolAddress := "0xp", assetAddress := "0xa" }
      [ProtocolAdapter.mk "Failing Adapter" (fun _ => .error "First adapter error")
        (fun _ => .error "unreachable")]
      (ProtocolAdapter.mk "Working Adapter" (fun _ => .ok true)
        (fun _ => .ok { address := "0xfeed", decimals := 8, description := none }))
      [] { address := "0xfeed", decimals := 8, description := none }
      (by decide) (by decide)⟩

/-- String concatenation concatenates character data. -/
theorem string_data_append (a b : String) : (a ++ b).data = a.data ++ b.data := rfl

/-- Every joined line occurs inside the `join('\n')` of the lines. -/
theorem infix_of_mem_joinLines {x : String} :
    ∀ {parts : List String}, x ∈ parts → x.data <:+: (joinLines parts).data := by
  intro parts
  induction parts with
  | nil => intro h; cases h
  | cons y rest ih =>
    intro h
    cases rest with
    | nil =>
      have hx : x = y := by simpa using h
      exact hx ▸ List.infix_rfl
    | cons z rest2 =>
      rcases List.mem_cons.mp h with hx | hmem
      · exact ⟨[], "\n".data ++ (joinLines (z :: rest2)).data,
          by simp [joinLines, string_data_append, List.append_assoc, hx]⟩
      · obtain ⟨s, t, hst⟩ := ih hmem
        exact ⟨(y ++ "\n").data ++ s, t,
          by simp only [joinLines, string_data_append, List.append_assoc, hst]⟩

/-- An infix of a string is an infix of any left-extension of it. -/
theorem infix_string_append_left {l : List Char} {m : String} (pre : String)
    (h : l <:+: m.data) : l <:+: (pre ++ m).data := by
  obtain ⟨s, t, hst⟩ := h
  exact ⟨pre.data ++ s, t, by simp only [string_data_append, List.append_assoc, hst]⟩

/-- The adapter name occurs inside its recorded aggregation line. -/
theorem infix_aggLine_name (p : String × String) : p.1.data <:+: (aggLine p).data :=
  ⟨"  - ".data, (": " ++ p.2).data,
    by simp [aggLine, string_data_append, List.append_assoc]⟩

/-- The error message occurs inside its recorded aggregation line. -/
theorem infix_aggLine_message (p : String × String) : p.2.data <:+: (aggLine p).data :=
  ⟨("  - " ++ p.1 ++ ": ").data, [],
    by simp [aggLine, string_data_append, List.append_assoc]⟩

/-- Any recorded (adapter, message) line occurs inside the aggregated
discovery error message. -/
theorem infix_aggregatedMessage_of_mem (total : Nat) (errs : List (String × String))
    (p : String × String) (hp : p ∈ errs) :
    (aggLine p).data <:+: (aggregatedMessage total errs).data := by
  have h1 : (aggLine p).data <:+: (joinLines (errs.map aggLine)).data :=
    infix_of_mem_joinLines (List.mem_map_of_mem aggLine hp)
  obtain ⟨s, t, hst⟩ := h1
  exact ⟨("Failed to detect price feed. " ++ ("Tried " ++ natToDecString total ++
      " adapters") ++ ":\n").data ++ s, t,
    by simp only [aggregatedMessage, string_data_append, List.append_assoc, hst]⟩

/-- The aggregated message states how many adapters were tried. -/
theorem infix_aggregatedMessage_tried (total : Nat) (errs : List (String × String)) :
    ("Tried " ++ natToDecString total ++ " adapters").data <:+:
      (aggregatedMessage total errs).data :=
  ⟨"Failed to detect price feed. ".data,
    (":\n" ++ joinLines (errs.map aggLine)).data,
    by simp [aggregatedMessage, string_data_append, List.append_assoc]⟩

/-- A list whose members all map to `some` filter-maps to a list of the same
length. -/
theorem length_filterMap_of_all_isSome {α β : Type} (f : α → Option β) :
    ∀ l : List α, l.all (fun a => (f a).isSome) = true →
      (l.filterMap f).length = l.length := by
  intro l
  induction l with
  | nil => intro h; rfl
  | cons a rest ih =>
    intro h
    rw [List.all_cons, Bool.and_eq_true] at h
    obtain ⟨b, hb⟩ := Option.isSome_iff_exists.mp h.1
    simp [List.filterMap_cons, hb, ih h.2]

/-- The discovery loop over adapters that all throw accumulates exactly one
(name, message) record per adapter and ends with the aggregated error. -/
theorem detectGo_all_fail (cfg : DetectFeedConfig) (total : Nat) :
    ∀ (l : List ProtocolAdapter) (errors : List (String × String)),
      l.all (fun a => (failsWith cfg a).isSome) = true →
      detectGo cfg total l errors =
        .error (aggregatedMessage total (errors ++ l.filterMap (failsWith cfg))) := by
  intro l
  induction l with
  | nil => intro errors h; simp [detectGo]
  | cons a rest ih =>
    intro errors h
    rw [List.all_cons, Bool.and_eq_true] at h
    obtain ⟨ha, hrest⟩ := h
    cases hch : a.canHandle cfg with
    | error e =>
      have hfw : failsWith cfg a = some (a.name, e) := by unfold failsWith; rw [hch]
      have hstep : detectGo cfg total (a :: rest) errors =
          detectGo cfg total rest (errors ++ [(a.name, e)]) := by
        simp only [detectGo]
        rw [hch]
      rw [hstep, ih (errors ++ [(a.name, e)]) hrest]
      simp [List.filterMap_cons, hfw]
    | ok b =>
      cases b with
      | false =>
        have hfw : failsWith cfg a = none := by unfold failsWith; rw [hch]
        rw [hfw] at ha
        simp at ha
      | true =>
        cases hdf : a.discoverFeed cfg with
        | ok f2 =>
          have hfw : failsWith cfg a = none := by unfold failsWith; rw [hch, hdf]
          rw [hfw] at ha
          simp at ha
        | error e =>
          have hfw : failsWith cfg a = some (a.name, e) := by
            unfold failsWith; rw [hch, hdf]
          have hstep : detectGo cfg total (a :: rest) errors =
              detectGo cfg total rest (errors ++ [(a.name, e)]) := by
            simp only [detectGo]
            rw [hch, hdf]
          rw [hstep, ih (errors ++ [(a.name, e)]) hrest]
          simp [List.filterMap_cons, hfw]

/-- C4: when every adapter in the list throws — its `canHandle` raises, or
`canHandle` returns true and `discoverFeed` raises — `detectPriceFeed` fails
with a single aggregated error; the aggregation records exactly one
(adapter name, error message) pair per adapter (N pairs for N adapters),
each recorded adapter name and each individual message occurs inside the
message, and the message states `Tried N adapters`. -/
theorem detectPriceFeed_all_fail (cfg : DetectFeedConfig)
    (adapters : List ProtocolAdapter)
    (h : adapters.all (fun a => (failsWith cfg a).isSome) = true) :
    detectPriceFeed cfg adapters =
      .error (aggregatedMessage adapters.length (adapters.filterMap (failsWith cfg))) ∧
    (adapters.filterMap (failsWith cfg)).length = adapters.length ∧
    (∀ p ∈ adapters.filterMap (failsWith cfg),
        p.1.data <:+:
          (aggregatedMessage adapters.length (adapters.filterMap (failsWith cfg))).data ∧
        p.2.data <:+:
          (aggregatedMessage adapters.length (adapters.filterMap (failsWith cfg))).data) ∧
    ("Tried " ++ natToDecString adapters.length ++ " adapters").data <:+:
      (aggregatedMessage adapters.length (adapters.filterMap (failsWith cfg))).data := by
  refine ⟨?_, length_filterMap_of_all_isSome _ _ h, fun p hp => ?_,
    infix_aggregatedMessage_tried _ _⟩
  · have := detectGo_all_fail cfg adapters.length adapters [] h
    simpa [detectPriceFeed] using this
  · have hline := infix_aggregatedMessage_of_mem adapters.length _ p hp
    exact ⟨(infix_aggLine_name p).trans hline, (infix_aggLine_message p).trans hline⟩

/-- Witness for `detectPriceFeed_all_fail`: two throwing adapters (one whose
probe raises, one whose discovery raises), evaluated concretely. -/
theorem detectPriceFeed_all_fail_witness :
    [ProtocolAdapter.mk "Failing Adapter 1" (fun _ => .error "First adapter error")
        (fun _ => .error "unused"),
      ProtocolAdapter.mk "Failing Adapter 2" (fun _ => .ok true)
        (fun _ => .error "Second adapter error")].all
      (fun a => (failsWith { protocolAddress := "0xp", assetAddress := "0xa" } a).isSome)
      = true ∧
    detectPriceFeed { protocolAddress := "0xp", assetAddress := "0xa" }
      [ProtocolAdapter.mk "Failing Adapter 1" (fun _ => .error "First adapter error")
          (fun _ => .error "unused"),
        ProtocolAdapter.mk "Failing Adapter 2" (fun _ => .ok true)
          (fun _ => .error "Second adapter error")] =
      .error (aggregatedMessage 2
        ([ProtocolAdapter.mk "Failing Adapter 1" (fun _ => .error "First adapter error")
            (fun _ => .error "unused"),
          ProtocolAdapter.mk "Failing Adapter 2" (fun _ => .ok true)
            (fun _ => .error "Second adapter error")].filterMap
          (failsWith { protocolAddress := "0xp", assetAddress := "0xa" }))) :=
  ⟨by decide,
    (detectPriceFeed_all_fail { protocolAddress := "0xp", assetAddress := "0xa" }
      [ProtocolAdapter.mk "Failing Adapter 1" (fun _ => .error "First adapter error")
          (fun _ => .error "unused"),
        ProtocolAdapter.mk "Failing Adapter 2" (fun _ => .ok true)
          (fun _ => .error "Second adapter error")] (by decide)).1⟩

/-- Folding the big-endian bytes of `v < 256 ^ l` onto an accumulator
recovers `acc * 256 ^ l + v`. -/
theorem foldl_natPadBE :
    ∀ (l v acc : Nat), v < 256 ^ l →
      (natPadBE l v).foldl (fun acc b => acc * 256 + b) acc = acc * 256 ^ l + v := by
  intro l
  induction l with
  | zero =>
    intro v acc h
    have hv : v = 0 := Nat.lt_one_iff.mp (by simpa using h)
    simp [natPadBE, hv]
  | succ l ih =>
    intro v acc h
    have hpos : 0 < 256 ^ l := Nat.pos_pow_of_pos l (by norm_num)
    simp only [natPadBE, List.foldl_cons]
    rw [ih (v % 256 ^ l) _ (Nat.mod_lt _ hpos)]
    have hdm : v / 256 ^ l * 256 ^ l + v % 256 ^ l = v := Nat.div_add_mod' v (256 ^ l)
    calc (acc * 256 + v / 256 ^ l) * 256 ^ l + v % 256 ^ l
        = acc * (256 ^ l * 256) + (v / 256 ^ l * 256 ^ l + v % 256 ^ l) := by ring
      _ = acc * 256 ^ (l + 1) + v := by rw [hdm, pow_succ]

/-- 32-byte left-padding is injective on values below `2 ^ 256`. -/
theorem natToBytes32_inj (v w : Nat) (hv : v < 2 ^ 256) (hw : w < 2 ^ 256)
    (h : natToBytes32 v = natToBytes32 w) : v = w := by
  have hpow : (256 : Nat) ^ 32 = 2 ^ 256 := by norm_num
  have h1 := foldl_natPadBE 32 v 0 (hpow ▸ hv)
  have h2 := foldl_natPadBE 32 w 0 (hpow ▸ hw)
  have h' : natPadBE 32 v = natPadBE 32 w := by simpa [natToBytes32] using h
  rw [h', h2] at h1
  simpa using h1.symm

/-- C7 counterexample: the claim that two different keys always yield
different slots fails — an address key and an integer key with the same
numeric value are different keys, yet they left-pad to the same 32 bytes and
therefore hash to the identical slot. -/
theorem calculateStorageSlot_distinct_keys_collide :
    calculateStorageSlot (.addr 5) 0 = calculateStorageSlot (.int 5) 0 ∧
    StorageKey.addr 5 ≠ StorageKey.int 5 := by
  refine ⟨?_, by decide⟩
  rfl

/-- C7 (amended): for every in-range key and base slot,
`calculateStorageSlot` equals the keccak256 hash of the 32-byte left-padded
key concatenated with the 32-byte left-padded base slot (key first, slot
second); the function is pure, so recomputation on the same pair is
definitionally identical; and two keys give different 64-byte hash inputs
exactly when their numeric values differ (32-byte padding is injective) — so
distinct outputs for distinct keys holds only up to keccak collision
resistance, and fails outright across key kinds (an address key and the
integer key of equal numeric value share a slot). -/
theorem calculateStorageSlot_spec :
    (∀ a s : Nat, a < 2 ^ 160 → s < 2 ^ 256 →
        calculateStorageSlot (.addr a) s =
          some (Keccak.keccak256 (natToBytes32 a ++ natToBytes32 s))) ∧
    (∀ n s : Nat, n < 2 ^ 256 → s < 2 ^ 256 →
        calculateStorageSlot (.int n) s =
          some (Keccak.keccak256 (natToBytes32 n ++ natToBytes32 s))) ∧
    (∀ (k : StorageKey) (s : Nat), calculateStorageSlot k s = calculateStorageSlot k s) ∧
    (∀ v w : Nat, v < 2 ^ 256 → w < 2 ^ 256 → natToBytes32 v = natToBytes32 w → v = w) := by
  refine ⟨fun a s ha hs => ?_, fun n s hn hs => ?_, fun k s => rfl, natToBytes32_inj⟩
  · simp only [calculateStorageSlot]
    rw [if_pos ha]
    exact if_pos hs
  · simp only [calculateStorageSlot]
    rw [if_pos hn]
    exact if_pos hs

/-- Witness for `calculateStorageSlot_spec` at the address key 1, base
slot 0. -/
theorem calculateStorageSlot_spec_witness :
    (1 : Nat) < 2 ^ 160 ∧ (0 : Nat) < 2 ^ 256 ∧
    calculateStorageSlot (.addr 1) 0 =
      some (Keccak.keccak256 (natToBytes32 1 ++ natToBytes32 0)) :=
  ⟨by norm_num, by norm_num, calculateStorageSlot_spec.1 1 0 (by norm_num) (by norm_num)⟩

/-- Digit characters round-trip to their values. -/
theorem digitVal_digitChar (d : Nat) (h : d < 10) : digitVal (digitChar d) = d := by
  interval_cases d <;> decide

/-- Digit characters are digit characters. -/
theorem isDigitChar_digitChar (d : Nat) (h : d < 10) : isDigitChar (digitChar d) = true := by
  interval_cases d <;> decide

/-- Folding the decimal-accumulation step from any initial accumulator. -/
theorem foldl_parseDecNat :
    ∀ (l : List Char) (i : Nat),
      l.foldl (fun a c => 10 * a + digitVal c) i = i * 10 ^ l.length + parseDecNat l := by
  intro l
  induction l with
  | nil => intro i; simp [parseDecNat]
  | cons c t ih =>
    intro i
    have hc : parseDecNat (c :: t) = digitVal c * 10 ^ t.length + parseDecNat t := by
      show (c :: t).foldl (fun a c => 10 * a + digitVal c) 0 =
        digitVal c * 10 ^ t.length + parseDecNat t
      rw [List.foldl_cons, ih]
      ring_nf
    rw [List.foldl_cons, ih, hc, List.length_cons]
    ring

/-- Decimal parsing distributes over list concatenation. -/
theorem parseDecNat_append (a b : List Char) :
    parseDecNat (a ++ b) = parseDecNat a * 10 ^ b.length + parseDecNat b := by
  unfold parseDecNat
  rw [List.foldl_append]
  exact foldl_parseDecNat b _

/-- Leading zero characters do not change the parsed value. -/
theorem parseDecNat_replicate_zero (k : Nat) (l : List Char) :
    parseDecNat (List.replicate k '0' ++ l) = parseDecNat l := by
  rw [parseDecNat_append]
  have h0 : parseDecNat (List.replicate k '0') = 0 := by
    induction k with
    | zero => rfl
    | succ k ih =>
      have : List.replicate (k + 1) '0' = ['0'] ++ List.replicate k '0' := by
        simp [List.replicate_succ]
      rw [this, parseDecNat_append, ih]
      have h1 : parseDecNat ['0'] = 0 := by decide
      rw [h1]
      simp
  rw [h0]
  simp

/-- The fueled digit emitter parses back to its input. -/
theorem parseDecNat_natToDecCharsAux :
    ∀ (fuel n : Nat), n < 10 ^ fuel → parseDecNat (natToDecCharsAux fuel n) = n := by
  intro fuel
  induction fuel with
  | zero =>
    intro n h
    have : n = 0 := Nat.lt_one_iff.mp (by simpa using h)
    simp [natToDecCharsAux, this, parseDecNat]
  | succ fuel ih =>
    intro n h
    by_cases hn : n = 0
    · simp [natToDecCharsAux, hn, parseDecNat]
    · rw [natToDecCharsAux, if_neg hn, parseDecNat_append]
      have hdiv : n / 10 < 10 ^ fuel := by
        rw [Nat.div_lt_iff_lt_mul (by norm_num)]
        calc n < 10 ^ (fuel + 1) := h
          _ = 10 ^ fuel * 10 := by rw [pow_succ]
      rw [ih _ hdiv]
      have hp : parseDecNat [digitChar (n % 10)] = n % 10 := by
        show 10 * 0 + digitVal (digitChar (n % 10)) = n % 10
        rw [digitVal_digitChar _ (Nat.mod_lt _ (by norm_num))]
        ring
      rw [hp]
      simp only [List.length_singleton, pow_one]
      exact Nat.div_add_mod' n 10

/-- The fueled digit emitter only emits digit characters. -/
theorem all_isDigitChar_natToDecCharsAux :
    ∀ fuel n : Nat, (natToDecCharsAux fuel n).all isDigitChar = true := by
  intro fuel
  induction fuel with
  | zero => intro n; rfl
  | succ fuel ih =>
    intro n
    by_cases hn : n = 0
    · simp [natToDecCharsAux, hn]
    · rw [natToDecCharsAux, if_neg hn, List.all_append]
      rw [ih (n / 10)]
      simp [isDigitChar_digitChar _ (Nat.mod_lt _ (by norm_num))]

/-- The fueled digit emitter emits at most `k` digits for inputs below
`10 ^ k`. -/
theorem length_natToDecCharsAux_le :
    ∀ fuel n k : Nat, n < 10 ^ k → (natToDecCharsAux fuel n).length ≤ k := by
  intro fuel
  induction fuel with
  | zero => intro n k _; simp [natToDecCharsAux]
  | succ fuel ih =>
    intro n k h
    by_cases hn : n = 0
    · simp [natToDecCharsAux, hn]
    · rw [natToDecCharsAux, if_neg hn]
      cases k with
      | zero =>
        exact absurd (Nat.lt_one_iff.mp (by simpa using h)) hn
      | succ k =>
        have hdiv : n / 10 < 10 ^ k := by
          rw [Nat.div_lt_iff_lt_mul (by norm_num)]
          calc n < 10 ^ (k + 1) := h
            _ = 10 ^ k * 10 := by rw [pow_succ]
        have := ih (n / 10) k hdiv
        simp only [List.length_append, List.length_singleton]
        omega

/-- JS decimal printing parses back to its input. -/
theorem parseDecNat_natToDecChars (n : Nat) : parseDecNat (natToDecChars n) = n := by
  unfold natToDecChars
  by_cases hn : n = 0
  · simp [hn]; decide
  · rw [if_neg hn]
    have hbound : n < 10 ^ (n + 1) :=
      lt_of_lt_of_le (Nat.lt_pow_self (by norm_num) n)
        (Nat.pow_le_pow_right (by norm_num) (Nat.le_succ n))
    exact parseDecNat_natToDecCharsAux (n + 1) n hbound

/-- JS decimal printing emits only digit characters. -/
theorem all_isDigitChar_natToDecChars (n : Nat) :
    (natToDecChars n).all isDigitChar = true := by
  unfold natToDecChars
  by_cases hn : n = 0
  · simp [hn]; decide
  · rw [if_neg hn]
    exact all_isDigitChar_natToDecCharsAux (n + 1) n

/-- JS decimal printing of `n < 10 ^ k` emits at most `k` characters when
`k ≥ 1`. -/
theorem length_natToDecChars_le (n k : Nat) (h : n < 10 ^ k) (hk : 0 < k) :
    (natToDecChars n).length ≤ k := by
  unfold natToDecChars
  by_cases hn : n = 0
  · simpa [hn] using hk
  · rw [if_neg hn]
    exact length_natToDecCharsAux_le (n + 1) n k h

/-- JS decimal printing is never the empty string. -/
theorem natToDecChars_ne_nil (n : Nat) : natToDecChars n ≠ [] := by
  unfold natToDecChars
  by_cases hn : n = 0
  · simp [hn]
  · rw [if_neg hn, natToDecCharsAux, if_neg hn]
    simp

/-- `split('.')` on a dot-free string yields the single fragment. -/
theorem splitOnDot_no_dot : ∀ l : List Char, '.' ∉ l → splitOnDot l = [l] := by
  intro l
  induction l with
  | nil => intro _; rfl
  | cons c t ih =>
    intro h
    have hc : ¬(c = '.') := fun hcc => h (hcc ▸ List.mem_cons_self c t)
    have ht : '.' ∉ t := fun hm => h (List.mem_cons_of_mem _ hm)
    rw [splitOnDot, if_neg hc, ih ht]

/-- `split('.')` at the first dot separates the dot-free head fragment. -/
theorem splitOnDot_append :
    ∀ a b : List Char, '.' ∉ a → splitOnDot (a ++ '.' :: b) = a :: splitOnDot b := by
  intro a
  induction a with
  | nil =>
    intro b _
    show splitOnDot ('.' :: b) = [] :: splitOnDot b
    rw [splitOnDot, if_pos rfl]
  | cons c t ih =>
    intro b h
    have hc : ¬(c = '.') := fun hcc => h (hcc ▸ List.mem_cons_self c t)
    have ht : '.' ∉ t := fun hm => h (List.mem_cons_of_mem _ hm)
    show splitOnDot (c :: (t ++ '.' :: b)) = (c :: t) :: splitOnDot b
    rw [splitOnDot, if_neg hc, ih b ht]

/-- A digit character list is not empty and starts with a non-minus digit,
so the restricted JS `BigInt` accepts it as its decimal value. -/
theorem jsBigIntOfChars_all_digits (l : List Char) (hne : l ≠ [])
    (hd : l.all isDigitChar = true) :
    jsBigIntOfChars l = some ((parseDecNat l : Int)) := by
  unfold jsBigIntOfChars
  rw [if_neg hne]
  have hhead : ¬(l.headD ' ' = '-') := by
    cases l with
    | nil => exact absurd rfl hne
    | cons c t =>
      have hc : isDigitChar c = true := by
        have := List.all_eq_true.mp hd c (List.mem_cons_self c t)
        simpa using this
      intro hcc
      rw [List.headD_cons] at hcc
      rw [hcc] at hc
      exact absurd hc (by decide)
  rw [if_neg hhead, if_pos hd]

/-- An element of a list of digit characters is not a dot. -/
theorem not_dot_mem_of_all_digits (l : List Char) (hd : l.all isDigitChar = true) :
    '.' ∉ l := by
  intro hm
  have := List.all_eq_true.mp hd '.' hm
  exact absurd this (by decide)

/-- The character data of `formatPrice` on a nonnegative value: whole-part
digits, a dot, and the zero-padded fractional digits. -/
theorem formatPrice_natCast (n d : Nat) :
    (formatPrice (↑n) d).data =
      natToDecChars (n / 10 ^ d) ++ '.' ::
        padStartZeros (natToDecChars (n % 10 ^ d)) d := by
  unfold formatPrice
  have h10 : ((10 : Int) ^ d) = ((10 ^ d : Nat) : Int) := by push_cast; ring
  have hw : (↑n : Int).tdiv ((10 : Int) ^ d) = ↑(n / 10 ^ d) := by
    rw [h10]; exact (Int.ofNat_tdiv n (10 ^ d)).symm
  have hm : (↑n : Int).tmod ((10 : Int) ^ d) = ↑(n % 10 ^ d) := by
    rw [h10]; exact (Int.ofNat_tmod n (10 ^ d)).symm
  have hid : ∀ m : Nat, intToDecChars (↑m) = natToDecChars m := by
    intro m
    unfold intToDecChars
    rw [if_neg (by simp), Int.toNat_ofNat]
  simp only [hw, hm, hid]

/-- C9 counterexample: on the negative value `-5` at precision 8 the
round-trip fails — `formatPrice` pads the signed fractional string
`"-5"` with zeros into `"0.000000-5"`, which `parsePrice` rejects (the JS
`BigInt` constructor throws on `"0000000-5"`), so
`parsePrice(formatPrice(v, d), d) = v` does not hold for every fixed-point
value. -/
theorem parsePrice_formatPrice_negative_fails :
    formatPrice (-5) 8 = "0.000000-5" ∧
    parsePrice "0.000000-5" 8 = none ∧
    parsePrice (formatPrice (-5) 8) 8 ≠ some (-5) := by decide

/-- The round-trip for nonnegative values at any positive precision. -/
theorem parse_format_roundtrip (v : Int) (d : Nat) (hv : 0 ≤ v) (hd : 0 < d) :
    parsePrice (formatPrice v d) d = some v := by
  obtain ⟨n, rfl⟩ := Int.eq_ofNat_of_zero_le hv
  have hfrac : n % 10 ^ d < 10 ^ d := Nat.mod_lt _ (Nat.pos_pow_of_pos d (by norm_num))
  set wholeChars := natToDecChars (n / 10 ^ d) with hwc
  set fracChars := padStartZeros (natToDecChars (n % 10 ^ d)) d with hfc
  have hflen : fracChars.length = d := by
    rw [hfc]
    unfold padStartZeros
    have := length_natToDecChars_le (n % 10 ^ d) d hfrac hd
    simp only [List.length_append, List.length_replicate]
    omega
  have hwdig : wholeChars.all isDigitChar = true := all_isDigitChar_natToDecChars _
  have hfdig : fracChars.all isDigitChar = true := by
    have hrepl : (List.replicate (d - (natToDecChars (n % 10 ^ d)).length) '0').all
        isDigitChar = true := by
      rw [List.all_eq_true]
      intro c hc
      rw [List.eq_of_mem_replicate hc]
      decide
    rw [hfc]
    unfold padStartZeros
    rw [List.all_append, hrepl, all_isDigitChar_natToDecChars]
    rfl
  unfold parsePrice
  rw [formatPrice_natCast]
  rw [splitOnDot_append _ _ (not_dot_mem_of_all_digits _ hwdig)]
  rw [splitOnDot_no_dot _ (not_dot_mem_of_all_digits _ hfdig)]
  simp only [List.headD_cons, List.getD_cons_succ, List.getD_cons_zero]
  have hpad : padEndZeros fracChars d = fracChars := by
    unfold padEndZeros
    rw [hflen]
    simp
  rw [hpad, List.take_of_length_le (le_of_eq hflen)]
  have hne : wholeChars ++ fracChars ≠ [] := by
    intro hcontra
    have hsplit := List.append_eq_nil.mp hcontra
    rw [hwc] at hsplit
    exact natToDecChars_ne_nil _ hsplit.1
  rw [jsBigIntOfChars_all_digits _ hne (by rw [List.all_append, hwdig, hfdig]; rfl)]
  rw [parseDecNat_append, hflen]
  rw [hwc, parseDecNat_natToDecChars]
  rw [hfc]
  unfold padStartZeros
  rw [parseDecNat_replicate_zero, parseDecNat_natToDecChars]
  rw [Nat.div_add_mod' n (10 ^ d)]

/-- C9 (amended): for every nonnegative fixed-point value `v` at precision
`d ∈ {8, 18}`, `parsePrice (formatPrice v d) d = v`; in particular
`formatPrice 200050000000 8 = "2000.50000000"` and
`parsePrice "2000.50" 8 = 200050000000`.  (For negative values the
round-trip fails; see the counterexample.) -/
theorem parsePrice_formatPrice_roundtrip :
    (∀ (v : Int) (d : Nat), 0 ≤ v → (d = 8 ∨ d = 18) →
        parsePrice (formatPrice v d) d = some v) ∧
    formatPrice 200050000000 8 = "2000.50000000" ∧
    parsePrice "2000.50" 8 = some 200050000000 := by
  refine ⟨fun v d hv hd => parse_format_roundtrip v d hv ?_, by decide, by decide⟩
  rcases hd with rfl | rfl <;> norm_num

/-- Witness for `parsePrice_formatPrice_roundtrip` at the spec's example
value. -/
theorem parsePrice_formatPrice_roundtrip_witness :
    (0 : Int) ≤ 200050000000 ∧ ((8 : Nat) = 8 ∨ (8 : Nat) = 18) ∧
    parsePrice (formatPrice 200050000000 8) 8 = some 200050000000 :=
  ⟨by decide, Or.inl rfl,
    parsePrice_formatPrice_roundtrip.1 200050000000 8 (by decide) (Or.inl rfl)⟩

end OracleMock
